import Mathlib

/-!
Verification of the task/priority categorization, ordering and recurrence
engine of the priority-tracker dashboard.

The embedding follows the JavaScript source:
* `src/js/tasks.js` — task lifecycle, classifier (`getTasksByCategory`),
  recurrence calculator (`calculateNextRecurrence`);
* `src/js/priorities.js` and the unnamed priority-manager module —
  priority lifecycle, `reorderPriorities`, `movePriorityToCategory`;
* `src/js/app.js` — the add-task input flow (`showAddTaskInput`/`saveTask`).

Calendar dates are modelled as explicit year/month/day triples; JavaScript
`Date` timestamp comparisons (after midnight normalization) are modelled by
comparing day numbers obtained from a civil-from-days conversion.
-/

namespace PriorityTracker

/-- A calendar date (proleptic Gregorian), as held by a normalized JS `Date`
whose time-of-day fields are zero.  `month` is 1-based (1 = January). -/
structure CalDate where
  year : Int
  month : Int
  day : Int
deriving DecidableEq, Repr

/-- Gregorian leap-year rule, as used by JS `Date` field arithmetic. -/
def isLeap (y : Int) : Bool :=
  y % 4 == 0 && (y % 100 != 0 || y % 400 == 0)

/-- Number of days in month `m` (1-based) of year `y`. -/
def daysInMonth (y m : Int) : Int :=
  if m = 2 then (if isLeap y then 29 else 28)
  else if m = 4 ∨ m = 6 ∨ m = 9 ∨ m = 11 then 30
  else 31

/-- A calendar date is valid when its month is 1..12 and its day fits the
month. -/
def ValidDate (d : CalDate) : Prop :=
  1 ≤ d.month ∧ d.month ≤ 12 ∧ 1 ≤ d.day ∧ d.day ≤ daysInMonth d.year d.month

instance : DecidablePred ValidDate := fun d => by
  unfold ValidDate; infer_instance

/-- Carry an overflowed month into the year (one year at most; all call
sites have `m ≤ 13`). Models JS `Date` month normalization on that domain. -/
def fixMonth (y m : Int) : Int × Int :=
  if 12 < m then (y + 1, m - 12) else (y, m)

/-- Normalize JS `Date` fields `(y, m, d)` where the month may exceed 12 by
at most one year and the day may exceed the month length by at most 28 days
(every use below has `d ≤ 31 + 7`): this models the timestamp
re-normalization JS performs after `setDate`/`setMonth`. -/
def normDate (y m d : Int) : CalDate :=
  if daysInMonth (fixMonth y m).1 (fixMonth y m).2 < d then
    ⟨(fixMonth (fixMonth y m).1 ((fixMonth y m).2 + 1)).1,
     (fixMonth (fixMonth y m).1 ((fixMonth y m).2 + 1)).2,
     d - daysInMonth (fixMonth y m).1 (fixMonth y m).2⟩
  else ⟨(fixMonth y m).1, (fixMonth y m).2, d⟩

/-- `calculateNextRecurrence(pattern, currentDate)` from `src/js/tasks.js`
(lines 136–154).  A null `currentDate` defaults to the current date `now`.
`daily` and unrecognized patterns do `setDate(getDate() + 1)`, `weekly` does
`setDate(getDate() + 7)`, `monthly` does `setMonth(getMonth() + 1)`; the
resulting field overflow is normalized by the JS `Date` object, modelled by
`normDate`. -/
def calculateNextRecurrence (pattern : String) (currentDate : Option CalDate)
    (now : CalDate) : CalDate :=
  let date := currentDate.getD now
  if pattern = "daily" then normDate date.year date.month (date.day + 1)
  else if pattern = "weekly" then normDate date.year date.month (date.day + 7)
  else if pattern = "monthly" then normDate date.year (date.month + 1) date.day
  else normDate date.year date.month (date.day + 1)

/-- Modelled from the spec's words: the calendar successor of a date —
"plus 1 day" in the ordinary calendar sense, used to state what "D + k days"
means independently of the JS normalization in `normDate`. -/
def succDate (d : CalDate) : CalDate :=
  if d.day < daysInMonth d.year d.month then ⟨d.year, d.month, d.day + 1⟩
  else if d.month < 12 then ⟨d.year, d.month + 1, 1⟩
  else ⟨d.year + 1, 1, 1⟩

/-- Civil-date to day-number conversion (days since 1970-01-01), the
standard "days from civil" algorithm.  This models the timestamp a JS
`Date` normalized to midnight holds, divided by 86 400 000: all date
comparisons in the classifier go through it. -/
def toDays (d : CalDate) : Int :=
  let y := if d.month ≤ 2 then d.year - 1 else d.year
  let era := (if 0 ≤ y then y else y - 399) / 400
  let yoe := y - era * 400
  let mp := (d.month + 9) % 12
  let doy := (153 * mp + 2) / 5 + d.day - 1
  let doe := yoe * 365 + yoe / 4 - yoe / 100 + doy
  era * 146097 + doe - 719468

/-- JS `getDay()` on a midnight-normalized date: day of week, 0 = Sunday.
Day number 0 (1970-01-01) was a Thursday. -/
def dayOfWeek (t : Int) : Int :=
  (t + 4) % 7

/-- JavaScript `String.prototype.trim()`: strip leading and trailing
whitespace.  (Defined over the character list so that concrete instances
evaluate inside the kernel.) -/
def jsTrim (s : String) : String :=
  ⟨((s.data.dropWhile Char.isWhitespace).reverse.dropWhile
      Char.isWhitespace).reverse⟩

/-- A task document, as stored in the `tasks` collection.  `order` is
optional because `addTask` does not set it (the classifier sorts by
`order || 0`). -/
structure Task where
  id : String
  title : String
  type : String
  category : String
  dueDate : Option CalDate
  recurring : Option String
  recurringPattern : Option String
  priorityId : Option String
  completed : Bool
  completedAt : Option CalDate
  order : Option Int
deriving DecidableEq, Repr

/-- The part of the `getTasksByCategory` filter predicate after the
completed-task gate (`src/js/tasks.js` lines 235–282): the recurring
section, the exclusion of recurring tasks elsewhere, due-date
categorization against calendar-week boundaries, and the static-category
fallback.  `tN` is today's day number. -/
def classifyCore (tN : Int) (task : Task) (category : String) : Bool :=
  if category = "recurring" then
    match task.recurring with
    | none => false
    | some _ =>
      let dueOk :=
        match task.dueDate with
        | some d => decide (toDays d ≤ tN)
        | none => true
      if task.completed then
        match task.completedAt with
        | none => false
        | some c => decide (toDays c = tN) && dueOk
      else dueOk
  else if task.recurring.isSome then false
  else
    match task.dueDate with
    | some d =>
      let dN := toDays d
      let endOfThisWeek := tN + (7 - dayOfWeek tN)
      let endOfNextWeek := endOfThisWeek + 7
      if category = "today" then decide (dN ≤ tN)
      else if category = "thisWeek" then decide (tN < dN ∧ dN ≤ endOfThisWeek)
      else if category = "nextWeek" then
        decide (endOfThisWeek < dN ∧ dN ≤ endOfNextWeek)
      else if category = "beyond" then decide (endOfNextWeek < dN)
      else if category = "backburner" then false
      else false
    | none => task.category == category

/-- The per-task filter predicate of `getTasksByCategory` (`src/js/tasks.js`
lines 216–284): a completed task is a member of the `completed` section, or
falls through to `classifyCore` when it was completed on today's calendar
date (the grace window); otherwise it is excluded.  Uncompleted tasks go
straight to `classifyCore`. -/
def taskInCategory (today : CalDate) (task : Task) (category : String) : Bool :=
  let tN := toDays today
  if task.completed then
    if category = "completed" then true
    else
      match task.completedAt with
      | some c =>
        if toDays c ≠ tN then false else classifyCore tN task category
      | none => false
  else classifyCore tN task category

/-- The six section buckets rendered by the work/personal views
(`renderWorkView` in `src/js/tasks.js`). -/
def sixBuckets : List String :=
  ["today", "thisWeek", "nextWeek", "beyond", "backburner", "recurring"]

/-- How many of the six section buckets claim the task. -/
def bucketCount (today : CalDate) (task : Task) : Nat :=
  (sixBuckets.filter (fun b => taskInCategory today task b)).length

/-- A priority item, as stored in the per-category `items` array
(`src/js/priorities.js`). -/
structure Priority where
  id : String
  title : String
  order : Int
deriving DecidableEq, Repr

/-- The renumbering pass `priorities[type].forEach((p, i) => p.order = i)`,
started at index `i`. -/
def renumberFrom (i : Nat) : List Priority → List Priority
  | [] => []
  | p :: rest => { p with order := (i : Int) } :: renumberFrom (i + 1) rest

/-- `priorities[type].forEach((p, i) => p.order = i)`. -/
def renumber (l : List Priority) : List Priority :=
  renumberFrom 0 l

/-- The renumbering pass applied to an array that may hold an `undefined`
entry (`none`): JS `forEach` visits the `undefined` element and
`p.order = i` throws a `TypeError` there, leaving the suffix untouched. -/
def renumberOrThrow (i : Nat) : List (Option Priority) → List (Option Priority)
  | [] => []
  | none :: rest => none :: rest
  | some p :: rest => some { p with order := (i : Int) } :: renumberOrThrow (i + 1) rest

/-- `reorderPriorities(type, fromIndex, toIndex)` from `src/js/priorities.js`
lines 88–96, including the JavaScript behaviour on an out-of-range
`fromIndex`: `splice(fromIndex, 1)` then removes nothing and `removed` is
`undefined`, `splice(toIndex, 0, undefined)` inserts an `undefined` entry
(clamping `toIndex` to the length), and the renumbering `forEach` throws a
`TypeError` when it reaches it.  `.error s` models that thrown exception,
with `s` the corrupted in-memory array at the throw; `savePriorities` is
then never reached.  On the normal path the element is moved and every
`order` is rewritten to its index before saving. -/
def reorderPriorities (l : List Priority) (fromIndex toIndex : Nat) :
    Except (List (Option Priority)) (List Priority) :=
  if h : fromIndex < l.length then
    let removed := l[fromIndex]
    let l1 := l.eraseIdx fromIndex
    .ok (renumber (l1.insertIdx (min toIndex l1.length) removed))
  else
    .error (renumberOrThrow 0 ((l.map some).insertIdx (min toIndex l.length) none))

/-- The same-category branch of the drop handler in
`initPriorityDragAndDrop` (unnamed priority-manager module, lines 442–451):
both indices are looked up by ID with `findIndex`, and `reorderPriorities`
is invoked only when both were found; otherwise nothing happens. -/
def sameCategoryDrop (l : List Priority) (draggedId targetId : String) :
    Except (List (Option Priority)) (List Priority) :=
  match l.findIdx? (fun p => p.id == draggedId),
        l.findIdx? (fun p => p.id == targetId) with
  | some fromIndex, some toIndex => reorderPriorities l fromIndex toIndex
  | _, _ => .ok l

/-- `deletePriority(type, priorityId)` from `src/js/priorities.js` lines
77–85: filter the item out, then renumber the remainder. -/
def deletePriority (l : List Priority) (priorityId : String) : List Priority :=
  renumber (l.filter (fun p => !(p.id == priorityId)))

/-- `movePriorityToCategory(priorityId, fromCategory, toCategory,
beforePriorityId)` from the unnamed priority-manager module, lines 492–526.
Returns the two category arrays after the move (source, target).  When the
ID is not found in the source the function returns early and both arrays
are untouched. -/
def movePriorityToCategory (fromList toList : List Priority)
    (priorityId : String) (beforePriorityId : Option String) :
    List Priority × List Priority :=
  match fromList.findIdx? (fun p => p.id == priorityId) with
  | none => (fromList, toList)
  | some k =>
    if hk : k < fromList.length then
      let priority := fromList[k]
      let newFrom := renumber (fromList.eraseIdx k)
      let newTo :=
        match beforePriorityId with
        | some bid =>
          match toList.findIdx? (fun p => p.id == bid) with
          | some t => renumber (toList.insertIdx t priority)
          | none => renumber (toList ++ [priority])
        | none => renumber (toList ++ [priority])
      (newFrom, newTo)
    else (fromList, toList)  -- unreachable: findIndex returns an in-range index

/-- The field object passed to `userDoc.collection('tasks').add(...)` —
a task document without the store-generated `id` (and without `order`,
which `add` never sets).  The `createdAt` server timestamp is outside the
model. -/
structure TaskWrite where
  title : String
  type : String
  category : String
  dueDate : Option CalDate
  recurring : Option String
  recurringPattern : Option String
  priorityId : Option String
  completed : Bool
  completedAt : Option CalDate
deriving DecidableEq, Repr

/-- The `options` object of `addTask(type, title, options = {})`. -/
structure AddOptions where
  category : Option String
  dueDate : Option CalDate
  recurring : Option String
  recurringPattern : Option String
  priorityId : Option String
deriving DecidableEq, Repr

/-- `addTask` called with no `options` argument. -/
def AddOptions.empty : AddOptions :=
  ⟨none, none, none, none, none⟩

/-- Observable outcome of a lifecycle operation: the value returned to the
caller (`.error` models a rethrown exception), the toasts shown through the
notification sink, and the task documents successfully written with `add`.
The `ok` flags passed to each operation below model whether the backing
store accepts that operation's write. -/
structure OpOutcome (α : Type) where
  result : Except Unit α
  toasts : List String
  writes : List TaskWrite
deriving Repr

/-- `addTask(type, title, options)` from `src/js/tasks.js` lines 39–64:
builds the document (trimming the title, defaulting `category` to
`'today'`, `completed=false`, `completedAt=null`), writes it, and toasts
`'Task added!'`; on a store failure it toasts `'Failed to add task'` and
rethrows. -/
def addTask (ok : Bool) (type title : String) (options : AddOptions) :
    OpOutcome Unit :=
  let task : TaskWrite :=
    { title := jsTrim title
      type := type
      category := options.category.getD "today"
      dueDate := options.dueDate
      recurring := options.recurring
      recurringPattern := options.recurringPattern
      priorityId := options.priorityId
      completed := false
      completedAt := none }
  if ok then ⟨.ok (), ["Task added!"], [task]⟩
  else ⟨.error (), ["Failed to add task"], []⟩

/-- `updateTask(taskId, updates)` from `src/js/tasks.js` lines 67–80: on a
store failure it toasts `'Failed to update task'` and rethrows; on success
it is silent.  The merged field values themselves are not tracked here —
only the claims' observables (toast, rethrow). -/
def updateTask (ok : Bool) : OpOutcome Unit :=
  if ok then ⟨.ok (), [], []⟩
  else ⟨.error (), ["Failed to update task"], []⟩

/-- `createNextRecurrence(task)` from `src/js/tasks.js` lines 110–133:
builds the successor document via `calculateNextRecurrence` and writes it
with no toast; a store failure is only logged to the console — the catch
block neither toasts nor rethrows, so the result is success either way. -/
def createNextRecurrence (ok : Bool) (now : CalDate) (task : Task) :
    OpOutcome Unit :=
  let nextDate := calculateNextRecurrence (task.recurring.getD "") task.dueDate now
  let newTask : TaskWrite :=
    { title := task.title
      type := task.type
      category := "today"
      dueDate := some nextDate
      recurring := task.recurring
      recurringPattern := task.recurringPattern
      priorityId := task.priorityId
      completed := false
      completedAt := none }
  if ok then ⟨.ok (), [], [newTask]⟩
  else ⟨.ok (), [], []⟩

/-- `completeTask(taskId, type)` from `src/js/tasks.js` lines 83–107: looks
the task up in the local snapshot (absent → returns `undefined`), flips
`completed` through `updateTask` (a failure there is rethrown), and on a
false→true transition of a recurring task also runs
`createNextRecurrence`, finally returning the new completed flag.
`updOk`/`addOk` are the store's acceptance of the two writes. -/
def completeTask (updOk addOk : Bool) (now : CalDate) (taskList : List Task)
    (taskId : String) : OpOutcome (Option Bool) :=
  match taskList.find? (fun t => t.id == taskId) with
  | none => ⟨.ok none, [], []⟩
  | some task =>
    let newCompleted := !task.completed
    let upd := updateTask updOk
    match upd.result with
    | .error _ => ⟨.error (), upd.toasts, upd.writes⟩
    | .ok _ =>
      if newCompleted then
        match task.recurring with
        | some _ =>
          let cr := createNextRecurrence addOk now task
          ⟨.ok (some newCompleted), upd.toasts ++ cr.toasts, upd.writes ++ cr.writes⟩
        | none => ⟨.ok (some newCompleted), upd.toasts, upd.writes⟩
      else ⟨.ok (some newCompleted), upd.toasts, upd.writes⟩

/-- `deleteTask(taskId)` from `src/js/tasks.js` lines 157–168, together
with its effect on the stored collection: on success the document is
removed (no renumbering of the remaining tasks happens anywhere) and
`'Task deleted'` is toasted; on failure `'Failed to delete task'` is
toasted and the error rethrown, the collection untouched. -/
def deleteTask (ok : Bool) (store : List Task) (taskId : String) :
    OpOutcome Unit × List Task :=
  if ok then
    (⟨.ok (), ["Task deleted"], []⟩, store.filter (fun t => !(t.id == taskId)))
  else
    (⟨.error (), ["Failed to delete task"], []⟩, store)

/-- The `saveTask` closure of `showAddTaskInput` in `src/js/app.js` lines
159–166: trim the input; call `addTask` only when the trimmed title is
nonempty, otherwise do nothing at all. -/
def saveTask (ok : Bool) (type rawTitle : String) : OpOutcome Unit :=
  let title := jsTrim rawTitle
  if title ≠ "" then addTask ok type title AddOptions.empty
  else ⟨.ok (), [], []⟩

/-- The id/title content of a priority, used to speak about element
identity independently of the rewritten `order` rank. -/
def Priority.core (p : Priority) : String × String :=
  (p.id, p.title)

/-- Sample priorities for concrete witnesses. -/
def prioA : Priority := ⟨"pA", "A", 0⟩

def prioB : Priority := ⟨"pB", "B", 1⟩

def prioC : Priority := ⟨"pC", "C", 0⟩

def prioD : Priority := ⟨"pD", "D", 1⟩

/-- A recurring weekly task due 2024-01-01 (Scenario B). -/
def weeklyTask : Task :=
  { id := "t1", title := "standup", type := "work", category := "today"
    dueDate := some ⟨2024, 1, 1⟩, recurring := some "weekly"
    recurringPattern := some "weekly", priorityId := none
    completed := false, completedAt := none, order := none }

/-- An uncompleted recurring task whose due date is tomorrow relative to
2024-01-01. -/
def recurringTomorrowTask : Task :=
  { id := "t2", title := "report", type := "work", category := "today"
    dueDate := some ⟨2024, 1, 2⟩, recurring := some "weekly"
    recurringPattern := some "weekly", priorityId := none
    completed := false, completedAt := none, order := none }

/-- An uncompleted, non-recurring task with a due date and
`category = 'backburner'` (Scenario A). -/
def backburnerDueTask : Task :=
  { id := "t3", title := "errand", type := "personal", category := "backburner"
    dueDate := some ⟨2024, 1, 1⟩, recurring := none
    recurringPattern := none, priorityId := none
    completed := false, completedAt := none, order := none }

/-- Two stored tasks with contiguous order ranks 0 and 1. -/
def taskOrder0 : Task :=
  { id := "a0", title := "first", type := "work", category := "today"
    dueDate := none, recurring := none, recurringPattern := none
    priorityId := none, completed := false, completedAt := none
    order := some 0 }

def taskOrder1 : Task :=
  { id := "a1", title := "second", type := "work", category := "today"
    dueDate := none, recurring := none, recurringPattern := none
    priorityId := none, completed := false, completedAt := none
    order := some 1 }

/-! ### Helper lemmas -/

/-- Every month has at least 28 days. -/
theorem daysInMonth_ge (y m : Int) : 28 ≤ daysInMonth y m := by
  unfold daysInMonth
  split_ifs <;> omega

theorem fixMonth_of_le (y m : Int) (h : m ≤ 12) : fixMonth y m = (y, m) := by
  unfold fixMonth
  rw [if_neg (by omega)]

theorem fixMonth_of_gt (y m : Int) (h : 12 < m) :
    fixMonth y m = (y + 1, m - 12) := by
  unfold fixMonth
  rw [if_pos h]

/-- Normalization is the identity on valid dates. -/
theorem normDate_valid (y m d : Int) (_hm1 : 1 ≤ m) (hm2 : m ≤ 12)
    (_hd1 : 1 ≤ d) (hd2 : d ≤ daysInMonth y m) :
    normDate y m d = ⟨y, m, d⟩ := by
  unfold normDate
  rw [fixMonth_of_le y m hm2]
  dsimp only
  rw [if_neg (by omega)]

/-- Normalization carries a day overflow into the next month. -/
theorem normDate_overflow (y m e : Int) (hm2 : m ≤ 12)
    (hov : daysInMonth y m < e) :
    normDate y m e =
      ⟨(fixMonth y (m + 1)).1, (fixMonth y (m + 1)).2,
       e - daysInMonth y m⟩ := by
  unfold normDate
  rw [fixMonth_of_le y m hm2]
  dsimp only
  rw [if_pos hov]

theorem succDate_day (y m d : Int) (h : d < daysInMonth y m) :
    succDate ⟨y, m, d⟩ = ⟨y, m, d + 1⟩ := by
  unfold succDate
  dsimp only
  rw [if_pos h]

theorem succDate_month (y m d : Int) (hd : ¬d < daysInMonth y m)
    (hm : m < 12) : succDate ⟨y, m, d⟩ = ⟨y, m + 1, 1⟩ := by
  unfold succDate
  dsimp only
  rw [if_neg hd, if_pos hm]

theorem succDate_year (y m d : Int) (hd : ¬d < daysInMonth y m)
    (hm : ¬m < 12) : succDate ⟨y, m, d⟩ = ⟨y + 1, 1, 1⟩ := by
  unfold succDate
  dsimp only
  rw [if_neg hd, if_neg hm]

/-- Taking the calendar successor commutes with normalizing a bounded day
overflow: `succ (norm (y, m, e)) = norm (y, m, e + 1)`. -/
theorem succDate_normDate (y m e : Int) (hm1 : 1 ≤ m) (hm2 : m ≤ 12)
    (he1 : 1 ≤ e) (he2 : e ≤ daysInMonth y m + 27) :
    succDate (normDate y m e) = normDate y m (e + 1) := by
  by_cases hov : daysInMonth y m < e
  · have h28 := daysInMonth_ge (fixMonth y (m + 1)).1 (fixMonth y (m + 1)).2
    rw [normDate_overflow y m e hm2 hov,
      normDate_overflow y m (e + 1) hm2 (by omega),
      succDate_day _ _ _ (by omega)]
    have hd : e - daysInMonth y m + 1 = e + 1 - daysInMonth y m := by omega
    rw [hd]
  · push_neg at hov
    rw [normDate_valid y m e hm1 hm2 he1 hov]
    by_cases hlast : e < daysInMonth y m
    · rw [normDate_valid y m (e + 1) hm1 hm2 (by omega) (by omega),
        succDate_day _ _ _ hlast]
    · rw [normDate_overflow y m (e + 1) hm2 (by omega)]
      by_cases hm12 : m < 12
      · rw [succDate_month _ _ _ hlast hm12,
          fixMonth_of_le y (m + 1) (by omega)]
        have hd : e + 1 - daysInMonth y m = 1 := by omega
        rw [hd]
      · rw [succDate_year _ _ _ hlast hm12,
          fixMonth_of_gt y (m + 1) (by omega)]
        have hm' : m + 1 - 12 = 1 := by omega
        have hd : e + 1 - daysInMonth y m = 1 := by omega
        rw [hm', hd]

/-- JS `setDate(getDate() + k)` (for `k ≤ 28`) is `k` applications of the
calendar successor. -/
theorem normDate_iterate (y m d : Int) (hm1 : 1 ≤ m) (hm2 : m ≤ 12)
    (hd1 : 1 ≤ d) (hd2 : d ≤ daysInMonth y m) :
    ∀ k : Nat, k ≤ 28 →
      normDate y m (d + (k : Int)) = Nat.iterate succDate k ⟨y, m, d⟩ := by
  intro k
  induction k with
  | zero =>
    intro _
    simpa using normDate_valid y m d hm1 hm2 hd1 hd2
  | succ k ih =>
    intro hk
    have hstep := succDate_normDate y m (d + (k : Int)) hm1 hm2 (by omega)
      (by omega)
    have hc : ((k + 1 : Nat) : Int) = (k : Int) + 1 := by push_cast; ring
    rw [hc, ← add_assoc, ← hstep, ih (by omega),
      Function.iterate_succ_apply']

theorem renumberFrom_length (i : Nat) (l : List Priority) :
    (renumberFrom i l).length = l.length := by
  induction l generalizing i with
  | nil => rfl
  | cons p rest ih => simp [renumberFrom, ih]

theorem renumberFrom_core (i : Nat) (l : List Priority) :
    (renumberFrom i l).map Priority.core = l.map Priority.core := by
  induction l generalizing i with
  | nil => rfl
  | cons p rest ih => simp [renumberFrom, ih, Priority.core]

theorem renumberFrom_order (i : Nat) (l : List Priority) :
    (renumberFrom i l).map Priority.order =
      (List.range' i l.length).map Int.ofNat := by
  induction l generalizing i with
  | nil => rfl
  | cons p rest ih => simp [renumberFrom, ih, List.range']

theorem renumber_core (l : List Priority) :
    (renumber l).map Priority.core = l.map Priority.core :=
  renumberFrom_core 0 l

theorem renumber_order (l : List Priority) :
    (renumber l).map Priority.order = (List.range l.length).map Int.ofNat := by
  rw [renumber, renumberFrom_order, List.range_eq_range']

theorem map_insertIdx {α β : Type} (f : α → β) (x : α) :
    ∀ (n : Nat) (l : List α),
      (l.insertIdx n x).map f = (l.map f).insertIdx n (f x)
  | 0, l => by simp [List.insertIdx_zero]
  | n + 1, [] => by simp [List.insertIdx_succ_nil]
  | n + 1, a :: l => by
    simp [List.insertIdx_succ_cons, map_insertIdx f x n l]

theorem map_eraseIdx {α β : Type} (f : α → β) :
    ∀ (n : Nat) (l : List α), (l.eraseIdx n).map f = (l.map f).eraseIdx n
  | _, [] => by simp [List.eraseIdx]
  | 0, a :: l => by simp [List.eraseIdx]
  | n + 1, a :: l => by simp [List.eraseIdx, map_eraseIdx f n l]

/-- When a completed task was completed on today's calendar date (or the
task is not completed at all), the gate of `getTasksByCategory` falls
through to the core classification, for every bucket other than
`completed`. -/
theorem taskInCategory_gate (today : CalDate) (task : Task) (b : String)
    (hb : ¬b = "completed")
    (h : task.completed = true → ∃ cAt, task.completedAt = some cAt ∧
      toDays cAt = toDays today) :
    taskInCategory today task b = classifyCore (toDays today) task b := by
  unfold taskInCategory
  rcases hc : task.completed
  · simp [hc]
  · obtain ⟨cAt, hca, hcd⟩ := h hc
    simp [hc, hb, hca, hcd]

/-- A task completed on a day other than today (or with no `completedAt`)
is excluded from every bucket other than `completed`. -/
theorem taskInCategory_stale (today : CalDate) (task : Task) (b : String)
    (hb : ¬b = "completed") (hcomp : task.completed = true)
    (h : ∀ cAt, task.completedAt = some cAt →
      ¬toDays cAt = toDays today) :
    taskInCategory today task b = false := by
  unfold taskInCategory
  rcases hca : task.completedAt with _ | cAt
  · simp [hcomp, hb, hca]
  · simp [hcomp, hb, hca, h cAt hca]

/-- The bucket count is the sum of the six membership indicators. -/
theorem bucketCount_expand (today : CalDate) (task : Task) :
    bucketCount today task =
      (if taskInCategory today task "today" then 1 else 0) +
      (if taskInCategory today task "thisWeek" then 1 else 0) +
      (if taskInCategory today task "nextWeek" then 1 else 0) +
      (if taskInCategory today task "beyond" then 1 else 0) +
      (if taskInCategory today task "backburner" then 1 else 0) +
      (if taskInCategory today task "recurring" then 1 else 0) := by
  unfold bucketCount sixBuckets
  simp only [List.filter_cons, List.filter_nil]
  split_ifs <;> simp

/-- A recurring task is excluded from the five non-`recurring` buckets. -/
theorem classifyCore_recurring_others (tN : Int) (u : Task) (r : String)
    (hr : u.recurring = some r) :
    classifyCore tN u "today" = false ∧
    classifyCore tN u "thisWeek" = false ∧
    classifyCore tN u "nextWeek" = false ∧
    classifyCore tN u "beyond" = false ∧
    classifyCore tN u "backburner" = false := by
  refine ⟨?_, ?_, ?_, ?_, ?_⟩ <;> simp [classifyCore, hr]

/-- A recurring task due today-or-earlier (or undated), whose completion —
if any — happened today, belongs to the `recurring` bucket. -/
theorem classifyCore_recurring_self (tN : Int) (u : Task) (r : String)
    (hr : u.recurring = some r)
    (hcOk : u.completed = true → ∃ cAt, u.completedAt = some cAt ∧
      toDays cAt = tN)
    (hdue : u.dueDate = none ∨ ∃ dd, u.dueDate = some dd ∧
      toDays dd ≤ tN) :
    classifyCore tN u "recurring" = true := by
  rcases hc : u.completed
  · rcases hdue with hd | ⟨dd, hd, hdd⟩ <;>
      simp [classifyCore, hr, hc, hd]
    exact hdd
  · obtain ⟨cAt, hca, hcd⟩ := hcOk hc
    rcases hdue with hd | ⟨dd, hd, hdd⟩ <;>
      simp [classifyCore, hr, hc, hca, hcd, hd]
    exact hdd

/-- Membership values for a non-recurring task with a due date. -/
theorem classifyCore_due (tN : Int) (u : Task) (dd : CalDate)
    (hr : u.recurring = none) (hd : u.dueDate = some dd) :
    classifyCore tN u "today" = decide (toDays dd ≤ tN) ∧
    classifyCore tN u "thisWeek" =
      decide (tN < toDays dd ∧ toDays dd ≤ tN + (7 - dayOfWeek tN)) ∧
    classifyCore tN u "nextWeek" =
      decide (tN + (7 - dayOfWeek tN) < toDays dd ∧
        toDays dd ≤ tN + (7 - dayOfWeek tN) + 7) ∧
    classifyCore tN u "beyond" =
      decide (tN + (7 - dayOfWeek tN) + 7 < toDays dd) ∧
    classifyCore tN u "backburner" = false ∧
    classifyCore tN u "recurring" = false := by
  refine ⟨?_, ?_, ?_, ?_, ?_, ?_⟩ <;> simp [classifyCore, hr, hd]

/-- Membership values for a task with neither recurrence nor due date. -/
theorem classifyCore_fallback (tN : Int) (u : Task)
    (hr : u.recurring = none) (hd : u.dueDate = none) :
    classifyCore tN u "today" = (u.category == "today") ∧
    classifyCore tN u "thisWeek" = (u.category == "thisWeek") ∧
    classifyCore tN u "nextWeek" = (u.category == "nextWeek") ∧
    classifyCore tN u "beyond" = (u.category == "beyond") ∧
    classifyCore tN u "backburner" = (u.category == "backburner") ∧
    classifyCore tN u "recurring" = false := by
  refine ⟨?_, ?_, ?_, ?_, ?_, ?_⟩ <;> simp [classifyCore, hr, hd]

/-- At most one core bucket ever matches. -/
theorem classifyCore_count_le (tN : Int) (u : Task) :
    (if classifyCore tN u "today" then 1 else 0) +
    (if classifyCore tN u "thisWeek" then 1 else 0) +
    (if classifyCore tN u "nextWeek" then 1 else 0) +
    (if classifyCore tN u "beyond" then 1 else 0) +
    (if classifyCore tN u "backburner" then 1 else 0) +
    (if classifyCore tN u "recurring" then 1 else 0) ≤ 1 := by
  have hdow1 : 0 ≤ dayOfWeek tN := Int.emod_nonneg _ (by omega)
  have hdow2 : dayOfWeek tN < 7 := Int.emod_lt_of_pos _ (by omega)
  rcases hr : u.recurring with _ | r
  · rcases hd : u.dueDate with _ | dd
    · obtain ⟨e1, e2, e3, e4, e5, e6⟩ := classifyCore_fallback tN u hr hd
      rw [e1, e2, e3, e4, e5, e6]
      by_cases c1 : u.category = "today" <;>
        by_cases c2 : u.category = "thisWeek" <;>
        by_cases c3 : u.category = "nextWeek" <;>
        by_cases c4 : u.category = "beyond" <;>
        by_cases c5 : u.category = "backburner" <;>
        simp_all
    · obtain ⟨e1, e2, e3, e4, e5, e6⟩ := classifyCore_due tN u dd hr hd
      rw [e1, e2, e3, e4, e5, e6]
      simp only [decide_eq_true_eq]
      split_ifs <;> first | omega | simp_all
  · obtain ⟨e1, e2, e3, e4, e5⟩ := classifyCore_recurring_others tN u r hr
    rw [e1, e2, e3, e4, e5]
    rcases classifyCore tN u "recurring" <;> simp

/-- Exactly one core bucket matches, for a task whose completion (if any)
happened today, which is due today-or-earlier or undated if recurring, and
whose static category is one of the five static buckets if it has neither
due date nor recurrence. -/
theorem classifyCore_count_eq (tN : Int) (u : Task)
    (hcOk : u.completed = true → ∃ cAt, u.completedAt = some cAt ∧
      toDays cAt = tN)
    (h2 : ∀ r, u.recurring = some r → u.dueDate = none ∨
      ∃ dd, u.dueDate = some dd ∧ toDays dd ≤ tN)
    (h3 : u.dueDate = none → u.recurring = none →
      u.category = "today" ∨ u.category = "thisWeek" ∨
      u.category = "nextWeek" ∨ u.category = "beyond" ∨
      u.category = "backburner") :
    (if classifyCore tN u "today" then 1 else 0) +
    (if classifyCore tN u "thisWeek" then 1 else 0) +
    (if classifyCore tN u "nextWeek" then 1 else 0) +
    (if classifyCore tN u "beyond" then 1 else 0) +
    (if classifyCore tN u "backburner" then 1 else 0) +
    (if classifyCore tN u "recurring" then 1 else 0) = 1 := by
  have hdow1 : 0 ≤ dayOfWeek tN := Int.emod_nonneg _ (by omega)
  have hdow2 : dayOfWeek tN < 7 := Int.emod_lt_of_pos _ (by omega)
  rcases hr : u.recurring with _ | r
  · rcases hd : u.dueDate with _ | dd
    · obtain ⟨e1, e2, e3, e4, e5, e6⟩ := classifyCore_fallback tN u hr hd
      rw [e1, e2, e3, e4, e5, e6]
      rcases h3 hd hr with hc | hc | hc | hc | hc <;> rw [hc] <;> simp
    · obtain ⟨e1, e2, e3, e4, e5, e6⟩ := classifyCore_due tN u dd hr hd
      rw [e1, e2, e3, e4, e5, e6]
      simp only [decide_eq_true_eq]
      split_ifs <;> first | omega | simp_all
  · obtain ⟨e1, e2, e3, e4, e5⟩ := classifyCore_recurring_others tN u r hr
    rw [e1, e2, e3, e4, e5,
      classifyCore_recurring_self tN u r hr hcOk (h2 r hr)]
    simp

/-- No configuration of task and date is claimed by more than one of the
six buckets. -/
theorem bucketCount_le_one (today : CalDate) (u : Task) :
    bucketCount today u ≤ 1 := by
  rw [bucketCount_expand]
  by_cases hcomp : u.completed = true
  · by_cases hgate : ∃ cAt, u.completedAt = some cAt ∧
      toDays cAt = toDays today
    · have hg : ∀ b, ¬b = "completed" →
          taskInCategory today u b = classifyCore (toDays today) u b :=
        fun b hb => taskInCategory_gate today u b hb fun _ => hgate
      rw [hg "today" (by decide), hg "thisWeek" (by decide),
        hg "nextWeek" (by decide), hg "beyond" (by decide),
        hg "backburner" (by decide), hg "recurring" (by decide)]
      exact classifyCore_count_le (toDays today) u
    · have hs : ∀ b, ¬b = "completed" → taskInCategory today u b = false :=
        fun b hb => taskInCategory_stale today u b hb hcomp
          fun cAt hca hcd => hgate ⟨cAt, hca, hcd⟩
      rw [hs "today" (by decide), hs "thisWeek" (by decide),
        hs "nextWeek" (by decide), hs "beyond" (by decide),
        hs "backburner" (by decide), hs "recurring" (by decide)]
      simp
  · have hg : ∀ b, ¬b = "completed" →
        taskInCategory today u b = classifyCore (toDays today) u b :=
      fun b hb => taskInCategory_gate today u b hb
        fun hcontra => absurd hcontra hcomp
    rw [hg "today" (by decide), hg "thisWeek" (by decide),
      hg "nextWeek" (by decide), hg "beyond" (by decide),
      hg "backburner" (by decide), hg "recurring" (by decide)]
    exact classifyCore_count_le (toDays today) u

/-! ### Claim theorems -/

/-- C1 counterexample: the uncompleted recurring weekly task due tomorrow
(2024-01-02, with today = 2024-01-01) is a member of none of the six
buckets — zero, not "exactly one", and neither of the claim's two
exceptions (it is not completed, and it is not a recurring task due
today). -/
theorem recurring_future_in_no_bucket :
    bucketCount ⟨2024, 1, 1⟩ recurringTomorrowTask = 0 ∧
    recurringTomorrowTask.completed = false ∧
    recurringTomorrowTask.recurring = some "weekly" ∧
    recurringTomorrowTask.dueDate = some ⟨2024, 1, 2⟩ := by
  refine ⟨by decide, rfl, rfl, rfl⟩

/-- C1 amended: at most one of the six buckets ever matches (so a recurring
item due today appears only in `recurring`, never also in `today`), and
exactly one matches provided that (i) if the item is completed it was
completed on today's calendar date (the grace window — it then also appears
in the separate `completed` bucket), (ii) if it is recurring its due date
is absent or not after today, and (iii) if it has neither due date nor
recurrence its `category` field is one of the five static buckets.  Items
completed on an earlier day, and recurring items due after today, match no
bucket at all. -/
theorem buckets_partition (today : CalDate) (task : Task)
    (h1 : task.completed = true → ∃ cAt, task.completedAt = some cAt ∧
      toDays cAt = toDays today)
    (h2 : ∀ r, task.recurring = some r → task.dueDate = none ∨
      ∃ dd, task.dueDate = some dd ∧ toDays dd ≤ toDays today)
    (h3 : task.dueDate = none → task.recurring = none →
      task.category = "today" ∨ task.category = "thisWeek" ∨
      task.category = "nextWeek" ∨ task.category = "beyond" ∨
      task.category = "backburner") :
    bucketCount today task = 1 ∧
    ∀ (t : CalDate) (u : Task), bucketCount t u ≤ 1 := by
  refine ⟨?_, fun t u => bucketCount_le_one t u⟩
  rw [bucketCount_expand]
  have hg : ∀ b, ¬b = "completed" →
      taskInCategory today task b = classifyCore (toDays today) task b :=
    fun b hb => taskInCategory_gate today task b hb h1
  rw [hg "today" (by decide), hg "thisWeek" (by decide),
    hg "nextWeek" (by decide), hg "beyond" (by decide),
    hg "backburner" (by decide), hg "recurring" (by decide)]
  exact classifyCore_count_eq (toDays today) task h1 h2 h3

/-- Witness for C1 amended: Scenario A's task (uncompleted, non-recurring,
due today) lies in exactly one bucket. -/
theorem buckets_partition_witness :
    (backburnerDueTask.completed = false ∧
     backburnerDueTask.recurring = none ∧
     backburnerDueTask.dueDate = some ⟨2024, 1, 1⟩) ∧
    (bucketCount ⟨2024, 1, 1⟩ backburnerDueTask = 1 ∧
     ∀ (t : CalDate) (u : Task), bucketCount t u ≤ 1) := by
  refine ⟨⟨rfl, rfl, rfl⟩, ?_⟩
  exact buckets_partition ⟨2024, 1, 1⟩ backburnerDueTask
    (fun hcontra => Bool.noConfusion hcontra)
    (fun r hr => Option.noConfusion hr)
    (fun hnone _ => Option.noConfusion hnone)

/-- C2: the classifier never reads the `category` field of a task whose
`dueDate` is set — its output for every bucket is invariant under changing
`category`; in particular (Scenario A) an uncompleted non-recurring item
with `dueDate = today` and `category = 'backburner'` is classified into
the `today` bucket and not into `backburner`. -/
theorem classifier_ignores_category :
    (∀ (today : CalDate) (task : Task) (c bucket : String) (dd : CalDate),
      task.dueDate = some dd →
      taskInCategory today { task with category := c } bucket =
        taskInCategory today task bucket) ∧
    (∀ (today : CalDate) (task : Task),
      task.dueDate = some today → task.completed = false →
      task.recurring = none →
      taskInCategory today task "today" = true ∧
      taskInCategory today task "backburner" = false) := by
  constructor
  · intro today task c bucket dd h
    simp only [taskInCategory, classifyCore, h]
  · intro today task hdue hcomp hrec
    constructor
    · simp [taskInCategory, classifyCore, hdue, hcomp, hrec]
    · simp [taskInCategory, classifyCore, hdue, hcomp, hrec]

/-- Witness for C2 at Scenario A's task. -/
theorem classifier_ignores_category_witness :
    (backburnerDueTask.dueDate = some ⟨2024, 1, 1⟩ ∧
     backburnerDueTask.completed = false ∧
     backburnerDueTask.recurring = none ∧
     backburnerDueTask.category = "backburner") ∧
    (taskInCategory ⟨2024, 1, 1⟩ backburnerDueTask "today" = true ∧
     taskInCategory ⟨2024, 1, 1⟩ backburnerDueTask "backburner" = false) :=
  ⟨⟨rfl, rfl, rfl, rfl⟩,
   classifier_ignores_category.2 ⟨2024, 1, 1⟩ backburnerDueTask rfl rfl rfl⟩

/-- C3 counterexample: for the anchor 2023-01-31, the code's `monthly`
recurrence gives 2023-03-03 (JS `setMonth` rolls the invalid Feb 31 over
into March), not the clipped 2023-02-28 the claim describes. -/
theorem calculateNextRecurrence_monthly_not_clipped :
    calculateNextRecurrence "monthly" (some ⟨2023, 1, 31⟩) ⟨2023, 1, 31⟩ =
      ⟨2023, 3, 3⟩ ∧
    (⟨2023, 3, 3⟩ : CalDate) ≠ ⟨2023, 2, 28⟩ := by
  exact ⟨by decide, by decide⟩

/-- C3 amended: for every valid anchor date `D`, the recurrence calculator
returns the calendar successor of `D` for `'daily'` and for every
unrecognized pattern (never an error), the 7-fold calendar successor for
`'weekly'` (also across month and year boundaries), and for `'monthly'`
the same day-of-month in the next month when that day exists there,
otherwise the day overflow is rolled over into the following month (JS
`Date` normalization — not clipped). -/
theorem calculateNextRecurrence_spec (pattern : String) (d now : CalDate)
    (hv : ValidDate d) :
    calculateNextRecurrence "daily" (some d) now = succDate d ∧
    calculateNextRecurrence "weekly" (some d) now =
      Nat.iterate succDate 7 d ∧
    (pattern ≠ "daily" → pattern ≠ "weekly" → pattern ≠ "monthly" →
      calculateNextRecurrence pattern (some d) now = succDate d) ∧
    (d.day ≤ daysInMonth (fixMonth d.year (d.month + 1)).1
        (fixMonth d.year (d.month + 1)).2 →
      calculateNextRecurrence "monthly" (some d) now =
        ⟨(fixMonth d.year (d.month + 1)).1,
         (fixMonth d.year (d.month + 1)).2, d.day⟩) ∧
    (daysInMonth (fixMonth d.year (d.month + 1)).1
        (fixMonth d.year (d.month + 1)).2 < d.day →
      calculateNextRecurrence "monthly" (some d) now =
        ⟨(fixMonth (fixMonth d.year (d.month + 1)).1
            ((fixMonth d.year (d.month + 1)).2 + 1)).1,
         (fixMonth (fixMonth d.year (d.month + 1)).1
            ((fixMonth d.year (d.month + 1)).2 + 1)).2,
         d.day - daysInMonth (fixMonth d.year (d.month + 1)).1
            (fixMonth d.year (d.month + 1)).2⟩) := by
  obtain ⟨hm1, hm2, hd1, hd2⟩ := hv
  have hdaily : calculateNextRecurrence "daily" (some d) now =
      normDate d.year d.month (d.day + 1) := by
    simp [calculateNextRecurrence]
  have hweekly : calculateNextRecurrence "weekly" (some d) now =
      normDate d.year d.month (d.day + 7) := by
    simp [calculateNextRecurrence]
  have hmonthly : calculateNextRecurrence "monthly" (some d) now =
      normDate d.year (d.month + 1) d.day := by
    simp [calculateNextRecurrence]
  refine ⟨?_, ?_, ?_, ?_, ?_⟩
  · rw [hdaily]
    have h := normDate_iterate d.year d.month d.day hm1 hm2 hd1 hd2 1
      (by omega)
    simpa using h
  · rw [hweekly]
    have h := normDate_iterate d.year d.month d.day hm1 hm2 hd1 hd2 7
      (by omega)
    simpa using h
  · intro h1 h2 h3
    have hdef : calculateNextRecurrence pattern (some d) now =
        normDate d.year d.month (d.day + 1) := by
      simp [calculateNextRecurrence, h1, h2, h3]
    rw [hdef]
    have h := normDate_iterate d.year d.month d.day hm1 hm2 hd1 hd2 1
      (by omega)
    simpa using h
  · intro hfit
    rw [hmonthly]
    unfold normDate
    rw [if_neg (by omega)]
  · intro hover
    rw [hmonthly]
    unfold normDate
    rw [if_pos (by omega)]

/-- Witness for C3 amended, at the year-boundary anchor 2023-12-31: the
weekly recurrence is the 7-fold calendar successor, concretely
2024-01-07. -/
theorem calculateNextRecurrence_spec_witness :
    ValidDate ⟨2023, 12, 31⟩ ∧
    (calculateNextRecurrence "weekly" (some ⟨2023, 12, 31⟩) ⟨2023, 12, 31⟩ =
       Nat.iterate succDate 7 ⟨2023, 12, 31⟩ ∧
     calculateNextRecurrence "weekly" (some ⟨2023, 12, 31⟩) ⟨2023, 12, 31⟩ =
       ⟨2024, 1, 7⟩) := by
  refine ⟨by decide, ?_, by decide⟩
  exact (calculateNextRecurrence_spec "weekly" ⟨2023, 12, 31⟩ ⟨2023, 12, 31⟩
    (by decide)).2.1

/-- C4: for every sequence of priorities and every valid pair
(`fromIndex` `i`, `toIndex` `j`), `reorderPriorities` moves the element at
`i` to position `j` (keeping the relative order of all other elements) and
reassigns the `order` fields to exactly `0..n-1`. -/
theorem reorderPriorities_moves (l : List Priority) (i j : Nat)
    (hi : i < l.length) (hj : j < l.length) :
    ∃ m, reorderPriorities l i j = .ok m ∧
      m.map Priority.core =
        ((l.eraseIdx i).map Priority.core).insertIdx j
          (Priority.core (l.get ⟨i, hi⟩)) ∧
      m.map Priority.order = (List.range l.length).map Int.ofNat := by
  have hlen : (l.eraseIdx i).length = l.length - 1 := by
    rw [List.length_eraseIdx]; simp [hi]
  have hj' : j ≤ (l.eraseIdx i).length := by omega
  have hmin : min j (l.eraseIdx i).length = j := by omega
  refine ⟨renumber ((l.eraseIdx i).insertIdx (min j (l.eraseIdx i).length)
    (l.get ⟨i, hi⟩)), ?_, ?_, ?_⟩
  · unfold reorderPriorities
    rw [dif_pos hi]
    rfl
  · rw [renumber_core, hmin, map_insertIdx]
  · rw [renumber_order]
    have hl : (List.insertIdx (min j (l.eraseIdx i).length) (l.get ⟨i, hi⟩)
        (l.eraseIdx i)).length = l.length := by
      rw [hmin, List.length_insertIdx j _ hj']
      omega
    rw [hl]

/-- Witness for C4 at Scenario C: moving `C` (index 2) to index 0 in
`[A, B, C, D]` yields `[C, A, B, D]` with `order` fields `0, 1, 2, 3`. -/
theorem reorderPriorities_moves_witness :
    (2 < ([prioA, prioB, prioC, prioD] : List Priority).length ∧
     0 < ([prioA, prioB, prioC, prioD] : List Priority).length) ∧
    ∃ m, reorderPriorities [prioA, prioB, prioC, prioD] 2 0 = .ok m ∧
      m.map Priority.core = [("pC", "C"), ("pA", "A"), ("pB", "B"), ("pD", "D")] ∧
      m.map Priority.order = [0, 1, 2, 3] := by
  refine ⟨⟨by decide, by decide⟩, ?_⟩
  obtain ⟨m, h1, h2, h3⟩ :=
    reorderPriorities_moves [prioA, prioB, prioC, prioD] 2 0 (by decide) (by decide)
  refine ⟨m, h1, ?_, ?_⟩
  · rw [h2]; decide
  · rw [h3]; decide

/-- C5 counterexample: `reorderPriorities` on the one-element list `[A]`
with the out-of-range `fromIndex = 1` is NOT a no-op and throws: `splice`
removes nothing, `undefined` is inserted at index 0, and the renumbering
pass throws a `TypeError` there, leaving the corrupted two-entry array
`[undefined, A]` in memory. -/
theorem reorderPriorities_out_of_range_throws :
    reorderPriorities [prioA] 1 0 = .error [none, some prioA] ∧
    ([prioA] : List Priority).map some ≠ [none, some prioA] := by
  exact ⟨rfl, by decide⟩

/-- C5 amended: when the dragged or target priority ID is not found in the
snapshot, the stale reference is caught by the drop handler, which performs
no reorder at all — no throw and the list untouched; and `reorderPriorities`
itself never throws as long as its `fromIndex` is in range (any `toIndex`
is clamped). An out-of-range `fromIndex` reaching `reorderPriorities`
directly, however, corrupts the array and throws (see the
counterexample). -/
theorem sameCategoryDrop_stale_noop (l : List Priority)
    (draggedId targetId : String)
    (h : l.findIdx? (fun p => p.id == draggedId) = none ∨
         l.findIdx? (fun p => p.id == targetId) = none) :
    sameCategoryDrop l draggedId targetId = .ok l ∧
    ∀ i j : Nat, i < l.length → ∃ m, reorderPriorities l i j = .ok m := by
  constructor
  · unfold sameCategoryDrop
    rcases ha : l.findIdx? (fun p => p.id == draggedId) with _ | i
    · rw [ha]
    · rcases hb : l.findIdx? (fun p => p.id == targetId) with _ | j
      · rw [ha, hb]
      · exfalso
        rcases h with h | h
        · rw [h] at ha; exact Option.noConfusion ha
        · rw [h] at hb; exact Option.noConfusion hb
  · intro i j hi
    exact ⟨renumber ((l.eraseIdx i).insertIdx (min j (l.eraseIdx i).length)
      (l.get ⟨i, hi⟩)), by unfold reorderPriorities; rw [dif_pos hi]; rfl⟩

/-- Witness for C5 amended: a drop whose dragged ID is stale. -/
theorem sameCategoryDrop_stale_noop_witness :
    (([prioA] : List Priority).findIdx? (fun p => p.id == "nope") = none ∨
     ([prioA] : List Priority).findIdx? (fun p => p.id == "pA") = none) ∧
    (sameCategoryDrop [prioA] "nope" "pA" = .ok [prioA] ∧
     ∀ i j : Nat, i < ([prioA] : List Priority).length →
       ∃ m, reorderPriorities [prioA] i j = .ok m) :=
  ⟨Or.inl (by decide),
   sameCategoryDrop_stale_noop [prioA] "nope" "pA" (Or.inl (by decide))⟩

/-- C6: completing a not-yet-completed recurring task creates exactly one
successor document whose `dueDate` is `calculateNextRecurrence` of the
pattern and the old due date, copying `title`, `type`, `recurring`,
`recurringPattern` and `priorityId`, with `completed = false`; the whole
operation (update + successor creation) shows no toast. -/
theorem completeTask_spawns_successor (now : CalDate) (taskList : List Task)
    (taskId : String) (task : Task) (pat : String)
    (hf : taskList.find? (fun t => t.id == taskId) = some task)
    (hc : task.completed = false)
    (hr : task.recurring = some pat) :
    completeTask true true now taskList taskId =
      ⟨.ok (some true), [],
        [{ title := task.title, type := task.type, category := "today"
           dueDate := some (calculateNextRecurrence pat task.dueDate now)
           recurring := some pat, recurringPattern := task.recurringPattern
           priorityId := task.priorityId, completed := false
           completedAt := none }]⟩ := by
  simp [completeTask, hf, updateTask, hc, hr, createNextRecurrence]

/-- Witness for C6 at Scenario B: the weekly task due 2024-01-01, completed
on 2024-01-01, spawns a successor due 2024-01-08 with `recurring='weekly'`
and `completed=false`, with no toast. -/
theorem completeTask_spawns_successor_witness :
    ([weeklyTask].find? (fun t => t.id == "t1") = some weeklyTask ∧
     weeklyTask.completed = false ∧ weeklyTask.recurring = some "weekly") ∧
    completeTask true true ⟨2024, 1, 1⟩ [weeklyTask] "t1" =
      ⟨.ok (some true), [],
        [{ title := "standup", type := "work", category := "today"
           dueDate := some ⟨2024, 1, 8⟩, recurring := some "weekly"
           recurringPattern := some "weekly", priorityId := none
           completed := false, completedAt := none }]⟩ := by
  refine ⟨⟨rfl, rfl, rfl⟩, ?_⟩
  have h := completeTask_spawns_successor ⟨2024, 1, 1⟩ [weeklyTask] "t1"
    weeklyTask "weekly" rfl rfl rfl
  rw [h]
  rfl

/-- C7 counterexample: when the store rejects the write of the recurring
successor, the failure is silently swallowed — `completeTask` still
succeeds (returns `true`), shows no toast, and re-signals nothing to its
caller, contradicting the claim for the recurring-successor creation. -/
theorem createNextRecurrence_failure_swallowed :
    completeTask true false ⟨2024, 1, 1⟩ [weeklyTask] "t1" =
      ⟨.ok (some true), [], []⟩ := by
  rfl

/-- C7 amended: a store failure in `create`, `update` or `delete` is
reported through the toast sink and rethrown to the caller (with the local
collection untouched for `delete`), and `toggleComplete` rethrows its
update failure; but the recurring-successor creation inside
`toggleComplete` swallows its own store failure (see the
counterexample). -/
theorem persistence_failures_reported :
    (∀ (type title : String) (options : AddOptions),
      (addTask false type title options).result = .error () ∧
      "Failed to add task" ∈ (addTask false type title options).toasts) ∧
    ((updateTask false).result = .error () ∧
     "Failed to update task" ∈ (updateTask false).toasts) ∧
    (∀ (store : List Task) (taskId : String),
      (deleteTask false store taskId).1.result = .error () ∧
      "Failed to delete task" ∈ (deleteTask false store taskId).1.toasts ∧
      (deleteTask false store taskId).2 = store) ∧
    (∀ (addOk : Bool) (now : CalDate) (taskList : List Task)
      (taskId : String) (task : Task),
      taskList.find? (fun t => t.id == taskId) = some task →
      (completeTask false addOk now taskList taskId).result = .error () ∧
      "Failed to update task" ∈
        (completeTask false addOk now taskList taskId).toasts) := by
  refine ⟨?_, ?_, ?_, ?_⟩
  · intro type title options
    exact ⟨rfl, by simp [addTask]⟩
  · exact ⟨rfl, by simp [updateTask]⟩
  · intro store taskId
    exact ⟨rfl, by simp [deleteTask], rfl⟩
  · intro addOk now taskList taskId task hf
    constructor <;> simp [completeTask, hf, updateTask]

/-- Witness for C7 amended (discharging the lookup hypothesis of the
`toggleComplete` conjunct). -/
theorem persistence_failures_reported_witness :
    ([weeklyTask].find? (fun t => t.id == "t1") = some weeklyTask) ∧
    ((completeTask false true ⟨2024, 1, 1⟩ [weeklyTask] "t1").result =
        .error () ∧
     "Failed to update task" ∈
        (completeTask false true ⟨2024, 1, 1⟩ [weeklyTask] "t1").toasts) :=
  ⟨rfl, persistence_failures_reported.2.2.2 true ⟨2024, 1, 1⟩ [weeklyTask]
    "t1" weeklyTask rfl⟩

/-- C8: the add-task flow trims the title, and when the trimmed title is
empty the create is a silent no-op — nothing persisted, no toast, no
exception (`showAddTaskInput` only calls `addTask` for a nonempty trimmed
title, and `addTask` stores the trimmed title). -/
theorem addTask_trims_empty_noop :
    (∀ (ok : Bool) (type raw : String), jsTrim raw = "" →
      saveTask ok type raw = ⟨.ok (), [], []⟩) ∧
    (∀ (ok : Bool) (type title : String) (options : AddOptions),
      (addTask ok type title options).writes.map TaskWrite.title =
        if ok then [jsTrim title] else []) := by
  constructor
  · intro ok type raw h
    simp [saveTask, h]
  · intro ok type title options
    cases ok <;> simp [addTask]

/-- Witness for C8: a whitespace-only title. -/
theorem addTask_trims_empty_noop_witness :
    jsTrim "   " = "" ∧ saveTask true "work" "   " = ⟨.ok (), [], []⟩ :=
  ⟨by decide, addTask_trims_empty_noop.1 true "work" "   " (by decide)⟩

/-- C9 counterexample: deleting the task with order 0 from a two-task
store leaves the survivor's `order` field at 1 — task deletion performs
no renormalization to `0..n-1`. -/
theorem deleteTask_no_renormalization :
    ((deleteTask true [taskOrder0, taskOrder1] "a0").2.map Task.order =
      [some 1]) ∧
    ([some 1] : List (Option Int)) ≠ [some 0] := by
  exact ⟨rfl, by decide⟩

/-- C9 amended: priority deletion renormalizes the surviving orders to the
contiguous sequence `0..n-1`; task deletion only removes the document —
every surviving task record (including its `order` field) is exactly as it
was in the store before. -/
theorem delete_renormalizes_priorities_only :
    (∀ (l : List Priority) (pid : String),
      (deletePriority l pid).map Priority.order =
        (List.range (l.filter (fun p => !(p.id == pid))).length).map
          Int.ofNat) ∧
    (∀ (store : List Task) (taskId : String) (t : Task),
      t ∈ (deleteTask true store taskId).2 → t ∈ store) := by
  constructor
  · intro l pid
    rw [deletePriority, renumber_order]
  · intro store taskId t ht
    simp only [deleteTask, if_pos, List.mem_filter] at ht
    exact ht.1

/-- Witness for C9 amended. -/
theorem delete_renormalizes_priorities_only_witness :
    taskOrder1 ∈ (deleteTask true [taskOrder0, taskOrder1] "a0").2 ∧
    taskOrder1 ∈ [taskOrder0, taskOrder1] :=
  ⟨by decide, delete_renormalizes_priorities_only.2 [taskOrder0, taskOrder1]
    "a0" taskOrder1 (by decide)⟩

/-- C10: moving a priority present in the source category removes exactly
it from the source, inserts it into the target (immediately before the
given target priority when that ID exists in the target, otherwise at the
end), and renumbers both lists' `order` fields to exactly `0..length-1`;
when the ID is absent from the source both lists are left unchanged. -/
theorem movePriorityToCategory_spec (fromList toList : List Priority)
    (pid : String) (beforeId : Option String) :
    (fromList.findIdx? (fun p => p.id == pid) = none →
      movePriorityToCategory fromList toList pid beforeId =
        (fromList, toList)) ∧
    (∀ (k : Nat) (hk : k < fromList.length),
      fromList.findIdx? (fun p => p.id == pid) = some k →
      (movePriorityToCategory fromList toList pid beforeId).1.map
          Priority.core = (fromList.eraseIdx k).map Priority.core ∧
      (movePriorityToCategory fromList toList pid beforeId).1.map
          Priority.order =
        (List.range (fromList.length - 1)).map Int.ofNat ∧
      (∀ (bid : String) (t : Nat), beforeId = some bid →
        toList.findIdx? (fun p => p.id == bid) = some t →
        (movePriorityToCategory fromList toList pid beforeId).2.map
            Priority.core =
          (toList.map Priority.core).insertIdx t
            (Priority.core (fromList.get ⟨k, hk⟩))) ∧
      ((beforeId = none ∨ ∃ bid, beforeId = some bid ∧
          toList.findIdx? (fun p => p.id == bid) = none) →
        (movePriorityToCategory fromList toList pid beforeId).2.map
            Priority.core =
          toList.map Priority.core ++
            [Priority.core (fromList.get ⟨k, hk⟩)]) ∧
      (movePriorityToCategory fromList toList pid beforeId).2.map
          Priority.order =
        (List.range (toList.length + 1)).map Int.ofNat) := by
  constructor
  · intro h
    unfold movePriorityToCategory
    rw [h]
  · intro k hk h
    have heq : movePriorityToCategory fromList toList pid beforeId =
        (renumber (fromList.eraseIdx k),
         match beforeId with
         | some bid =>
           match toList.findIdx? (fun p => p.id == bid) with
           | some t => renumber (toList.insertIdx t (fromList.get ⟨k, hk⟩))
           | none => renumber (toList ++ [fromList.get ⟨k, hk⟩])
         | none => renumber (toList ++ [fromList.get ⟨k, hk⟩])) := by
      unfold movePriorityToCategory
      rw [h]
      dsimp only
      rw [dif_pos hk]
      rfl
    have hlen : (fromList.eraseIdx k).length = fromList.length - 1 := by
      rw [List.length_eraseIdx]; simp [hk]
    refine ⟨?_, ?_, ?_, ?_, ?_⟩
    · rw [heq]
      exact renumber_core _
    · rw [heq]
      simp only
      rw [renumber_order, hlen]
    · intro bid t hb ht
      rw [heq, hb]
      simp only
      rw [ht, renumber_core, map_insertIdx]
    · intro hcase
      rcases hcase with hb | ⟨bid, hb, ht⟩
      · rw [heq, hb]
        simp only
        rw [renumber_core]
        simp
      · rw [heq, hb]
        simp only
        rw [ht, renumber_core]
        simp
    · rw [heq]
      dsimp only
      rcases beforeId with _ | bid
      · dsimp only
        rw [renumber_order]
        simp
      · dsimp only
        rcases ht : toList.findIdx? (fun p => p.id == bid) with _ | t
        · rw [ht]
          dsimp only
          rw [renumber_order]
          simp
        · have htl : t < toList.length :=
            (List.findIdx?_eq_some_iff_findIdx_eq.mp ht).1
          rw [ht]
          dsimp only
          rw [renumber_order, List.length_insertIdx t _ (by omega)]

/-- Witness for C10: moving `B` from `[A, B]` to `[C, D]` before `D`. -/
theorem movePriorityToCategory_spec_witness :
    (([prioA, prioB] : List Priority).findIdx? (fun p => p.id == "pB") =
        some 1 ∧
     1 < ([prioA, prioB] : List Priority).length) ∧
    ((movePriorityToCategory [prioA, prioB] [prioC, prioD] "pB"
        (some "pD")).1.map Priority.core = [("pA", "A")] ∧
     (movePriorityToCategory [prioA, prioB] [prioC, prioD] "pB"
        (some "pD")).1.map Priority.order = [0] ∧
     (movePriorityToCategory [prioA, prioB] [prioC, prioD] "pB"
        (some "pD")).2.map Priority.core =
       [("pC", "C"), ("pB", "B"), ("pD", "D")] ∧
     (movePriorityToCategory [prioA, prioB] [prioC, prioD] "pB"
        (some "pD")).2.map Priority.order = [0, 1, 2]) := by
  refine ⟨⟨by decide, by decide⟩, ?_⟩
  obtain ⟨h1, h2, h3, h4, h5⟩ :=
    (movePriorityToCategory_spec [prioA, prioB] [prioC, prioD] "pB"
      (some "pD")).2 1 (by decide) (by decide)
  refine ⟨?_, ?_, ?_, ?_⟩
  · rw [h1]; decide
  · rw [h2]; decide
  · rw [h3 "pD" 1 rfl (by decide)]; decide
  · rw [h5]; decide

end PriorityTracker
